import Mathlib

/-!
Verification development for the Agent Swamps orchestration core
(backend/src/orchestration and backend/src/models).

Shallow embedding: each TypeScript class relevant to the verified
properties is translated into executable Lean definitions.  JavaScript
Maps become association lists (insertion order preserved, which matters
because the source iterates Map.values()), object mutation becomes
functional state update, fresh uuid task ids become a counter, wall-clock
time becomes an explicit numeric parameter, and the asynchronous provider
and agent calls become explicit outcome oracles.
-/

namespace Swamps

/-! ## Task queue (backend/src/orchestration/TaskQueue.ts) -/

/-- Task priorities, highest first (shared/types.ts). -/
inductive TaskPriority where
  | CRITICAL | HIGH | MEDIUM | LOW
deriving DecidableEq, Repr

/-- Task statuses (shared/types.ts). -/
inductive TaskStatus where
  | PENDING | ASSIGNED | IN_PROGRESS | COMPLETED | FAILED | CANCELLED
deriving DecidableEq, Repr

/-- The fields of a queued Task that the queue and cancellation logic
read or write (title, description, timestamps and context are opaque to
those code paths and are omitted). -/
structure QTask where
  id : String
  priority : TaskPriority
  status : TaskStatus
deriving DecidableEq, Repr

/-- TaskQueue state: the four priority sub-queues (the `queues` Map,
whose iteration order is its insertion order CRITICAL, HIGH, MEDIUM,
LOW), plus the `activeTasks` and `completedTasks` Maps keyed by task id,
kept as lists in insertion order. -/
structure TaskQueue where
  critical : List QTask
  high : List QTask
  medium : List QTask
  low : List QTask
  active : List QTask
  completed : List QTask
deriving DecidableEq, Repr

/-- A fresh TaskQueue with all containers empty. -/
def TaskQueue.empty : TaskQueue := ⟨[], [], [], [], [], []⟩

/-- Map.set semantics on an id-keyed list: replace the entry with the
same id in place, else append. -/
def setById (l : List QTask) (t : QTask) : List QTask :=
  if l.any (fun u => u.id = t.id) then
    l.map (fun u => if u.id = t.id then t else u)
  else l ++ [t]

/-- TaskQueue.enqueue: push the task at the back of the sub-queue of its
priority (all four priorities are present in the `queues` Map). -/
def TaskQueue.enqueue (q : TaskQueue) (t : QTask) : TaskQueue :=
  match t.priority with
  | .CRITICAL => { q with critical := q.critical ++ [t] }
  | .HIGH => { q with high := q.high ++ [t] }
  | .MEDIUM => { q with medium := q.medium ++ [t] }
  | .LOW => { q with low := q.low ++ [t] }

/-- TaskQueue.dequeue: shift the head of the first non-empty sub-queue
in the order CRITICAL, HIGH, MEDIUM, LOW, moving it into `activeTasks`;
`null` (here `none`) when every sub-queue is empty. -/
def TaskQueue.dequeue (q : TaskQueue) : Option QTask × TaskQueue :=
  match q.critical with
  | t :: rest => (some t, { q with critical := rest, active := setById q.active t })
  | [] =>
  match q.high with
  | t :: rest => (some t, { q with high := rest, active := setById q.active t })
  | [] =>
  match q.medium with
  | t :: rest => (some t, { q with medium := rest, active := setById q.active t })
  | [] =>
  match q.low with
  | t :: rest => (some t, { q with low := rest, active := setById q.active t })
  | [] => (none, q)

/-- Total number of queued (not yet dequeued) tasks. -/
def TaskQueue.queuedCount (q : TaskQueue) : Nat :=
  q.critical.length + q.high.length + q.medium.length + q.low.length

/-- Repeatedly dequeue until the queue reports empty, collecting the
returned tasks in order; `fuel` bounds the recursion. -/
def drainAux : Nat → TaskQueue → List QTask
  | 0, _ => []
  | fuel + 1, q =>
    match q.dequeue with
    | (none, _) => []
    | (some t, q2) => t :: drainAux fuel q2

/-- Dequeue everything that is queued, in dequeue order. -/
def TaskQueue.drain (q : TaskQueue) : List QTask :=
  drainAux q.queuedCount q

/-- Enqueue a list of tasks left to right. -/
def TaskQueue.enqueueAll (q : TaskQueue) (ts : List QTask) : TaskQueue :=
  ts.foldl TaskQueue.enqueue q

lemma enqueue_critical (q : TaskQueue) (t : QTask)
    (h : t.priority = .CRITICAL) :
    q.enqueue t = { q with critical := q.critical ++ [t] } := by
  simp [TaskQueue.enqueue, h]

lemma enqueueAll_parts (ts : List QTask) (q : TaskQueue) :
    (q.enqueueAll ts).critical
        = q.critical ++ ts.filter (fun t => t.priority = .CRITICAL)
    ∧ (q.enqueueAll ts).high
        = q.high ++ ts.filter (fun t => t.priority = .HIGH)
    ∧ (q.enqueueAll ts).medium
        = q.medium ++ ts.filter (fun t => t.priority = .MEDIUM)
    ∧ (q.enqueueAll ts).low
        = q.low ++ ts.filter (fun t => t.priority = .LOW)
    ∧ (q.enqueueAll ts).active = q.active
    ∧ (q.enqueueAll ts).completed = q.completed := by
  induction ts generalizing q with
  | nil => simp [TaskQueue.enqueueAll]
  | cons t rest ih =>
    have step : TaskQueue.enqueueAll q (t :: rest)
        = TaskQueue.enqueueAll (q.enqueue t) rest := by
      simp [TaskQueue.enqueueAll]
    rw [step]
    rcases ih (q.enqueue t) with ⟨hc, hh, hm, hl, ha, hco⟩
    cases hp : t.priority <;>
      simp_all [TaskQueue.enqueue, List.filter_cons, hp]

lemma dequeue_eq_none_iff (q : TaskQueue) :
    (q.dequeue).1 = none ↔ q.queuedCount = 0 := by
  cases hc : q.critical <;> cases hh : q.high <;> cases hm : q.medium <;>
    cases hl : q.low <;>
      simp [TaskQueue.dequeue, TaskQueue.queuedCount, hc, hh, hm, hl]

lemma drainAux_concat (fuel : Nat) (q : TaskQueue)
    (hfuel : q.queuedCount ≤ fuel) :
    drainAux fuel q = q.critical ++ q.high ++ q.medium ++ q.low := by
  induction fuel generalizing q with
  | zero =>
    have h0 : q.queuedCount = 0 := Nat.le_zero.mp hfuel
    simp only [TaskQueue.queuedCount, Nat.add_eq_zero,
      List.length_eq_zero] at h0
    obtain ⟨⟨⟨hc, hh⟩, hm⟩, hl⟩ := h0
    simp [drainAux, hc, hh, hm, hl]
  | succ n ih =>
    obtain ⟨c, h, m, l, a, co⟩ := q
    cases c with
    | cons t rest =>
      have hb : TaskQueue.queuedCount ⟨rest, h, m, l, setById a t, co⟩ ≤ n := by
        simp [TaskQueue.queuedCount] at hfuel ⊢
        omega
      simpa [drainAux, TaskQueue.dequeue] using ih _ hb
    | nil =>
    cases h with
    | cons t rest =>
      have hb : TaskQueue.queuedCount ⟨[], rest, m, l, setById a t, co⟩ ≤ n := by
        simp [TaskQueue.queuedCount] at hfuel ⊢
        omega
      simpa [drainAux, TaskQueue.dequeue] using ih _ hb
    | nil =>
    cases m with
    | cons t rest =>
      have hb : TaskQueue.queuedCount ⟨[], [], rest, l, setById a t, co⟩ ≤ n := by
        simp [TaskQueue.queuedCount] at hfuel ⊢
        omega
      simpa [drainAux, TaskQueue.dequeue] using ih _ hb
    | nil =>
    cases l with
    | cons t rest =>
      have hb : TaskQueue.queuedCount ⟨[], [], [], rest, setById a t, co⟩ ≤ n := by
        simp [TaskQueue.queuedCount] at hfuel ⊢
        omega
      simpa [drainAux, TaskQueue.dequeue] using ih _ hb
    | nil =>
      simp [drainAux, TaskQueue.dequeue]

/-! ### Lookup, removal and cancellation -/

/-- `queue.find(qt => qt.task.id === taskId)` on one container. -/
def findById (l : List QTask) (i : String) : Option QTask :=
  l.find? (fun t => t.id = i)

/-- TaskQueue.getTask: check `activeTasks`, then the four sub-queues in
Map iteration order, then `completedTasks`. -/
def TaskQueue.getTask (q : TaskQueue) (i : String) : Option QTask :=
  match findById q.active i with
  | some t => some t
  | none =>
  match findById q.critical i with
  | some t => some t
  | none =>
  match findById q.high i with
  | some t => some t
  | none =>
  match findById q.medium i with
  | some t => some t
  | none =>
  match findById q.low i with
  | some t => some t
  | none => findById q.completed i

/-- Presence test for an id in one container. -/
def hasId (l : List QTask) (i : String) : Bool :=
  l.any (fun t => t.id = i)

/-- TaskQueue.removeTask: delete from `activeTasks` if present (returns
true), else splice the first match out of the sub-queues in Map
iteration order; false when nothing matched.  `completedTasks` is never
touched. -/
def TaskQueue.removeTask (q : TaskQueue) (i : String) : Bool × TaskQueue :=
  if hasId q.active i then
    (true, { q with active := q.active.eraseP (fun t => t.id = i) })
  else if hasId q.critical i then
    (true, { q with critical := q.critical.eraseP (fun t => t.id = i) })
  else if hasId q.high i then
    (true, { q with high := q.high.eraseP (fun t => t.id = i) })
  else if hasId q.medium i then
    (true, { q with medium := q.medium.eraseP (fun t => t.id = i) })
  else if hasId q.low i then
    (true, { q with low := q.low.eraseP (fun t => t.id = i) })
  else (false, q)

/-- In the source every container holds references to the same Task
object, so the assignment `task.status = 'CANCELLED'` is visible through
any container that still holds the task; this updates every held copy. -/
def overwriteStatus (q : TaskQueue) (i : String) (st : TaskStatus) : TaskQueue :=
  let f : List QTask → List QTask :=
    fun l => l.map (fun t => if t.id = i then { t with status := st } else t)
  ⟨f q.critical, f q.high, f q.medium, f q.low, f q.active, f q.completed⟩

/-- Orchestrator.cancelTask: look the task up; if it exists and is
still PENDING or ASSIGNED, remove it from the queue, mark the (now
detached) object CANCELLED and return true; otherwise return false and
change nothing. -/
def cancelTask (q : TaskQueue) (i : String) : Bool × TaskQueue :=
  match q.getTask i with
  | none => (false, q)
  | some t =>
    if t.status = .PENDING ∨ t.status = .ASSIGNED then
      (true, overwriteStatus (q.removeTask i).2 i .CANCELLED)
    else (false, q)

/-- Every container of the queue, concatenated. -/
def allLists (q : TaskQueue) : List QTask :=
  q.active ++ q.critical ++ q.high ++ q.medium ++ q.low ++ q.completed

/-- Number of tasks carrying a given id in one container. -/
def countId (l : List QTask) (i : String) : Nat :=
  l.countP (fun t => t.id = i)

lemma countId_append (xs ys : List QTask) (i : String) :
    countId (xs ++ ys) i = countId xs i + countId ys i := by
  simp [countId, List.countP_append]

lemma hasId_iff_countId_pos (l : List QTask) (i : String) :
    hasId l i = true ↔ 0 < countId l i := by
  simp [hasId, countId, List.countP_pos_iff, List.any_eq_true]

lemma findById_eq_none_iff (l : List QTask) (i : String) :
    findById l i = none ↔ countId l i = 0 := by
  simp [findById, countId, List.find?_eq_none, List.countP_eq_zero]

lemma findById_some (l : List QTask) (i : String) (t : QTask)
    (h : findById l i = some t) : t ∈ l ∧ t.id = i := by
  refine ⟨List.mem_of_find?_eq_some h, ?_⟩
  have := List.find?_some h
  simpa using this

lemma countId_eraseP (l : List QTask) (i : String)
    (h : hasId l i = true) :
    countId (l.eraseP (fun t => t.id = i)) i = countId l i - 1 := by
  induction l with
  | nil => simp [hasId] at h
  | cons x xs ih =>
    by_cases hx : x.id = i
    · simp [List.eraseP_cons, countId, hx]
    · have hxs : hasId xs i = true := by
        simp [hasId, List.any_eq_true] at h ⊢
        rcases h with h | h
        · exact absurd h hx
        · exact h
      have := ih hxs
      have hpos := (hasId_iff_countId_pos xs i).mp hxs
      simp [List.eraseP_cons, hx, countId] at this ⊢
      omega

lemma getTask_some (q : TaskQueue) (i : String) (t : QTask)
    (h : q.getTask i = some t) : t ∈ allLists q ∧ t.id = i := by
  unfold TaskQueue.getTask at h
  simp only [allLists, List.mem_append]
  rcases ha : findById q.active i with _ | u <;> rw [ha] at h
  rotate_left
  · cases h; have := findById_some _ _ _ ha; tauto
  rcases hc : findById q.critical i with _ | u <;> rw [hc] at h
  rotate_left
  · cases h; have := findById_some _ _ _ hc; tauto
  rcases hh : findById q.high i with _ | u <;> rw [hh] at h
  rotate_left
  · cases h; have := findById_some _ _ _ hh; tauto
  rcases hm : findById q.medium i with _ | u <;> rw [hm] at h
  rotate_left
  · cases h; have := findById_some _ _ _ hm; tauto
  rcases hl : findById q.low i with _ | u <;> rw [hl] at h
  rotate_left
  · cases h; have := findById_some _ _ _ hl; tauto
  have := findById_some _ _ _ h; tauto

lemma getTask_eq_none_of_counts (q : TaskQueue) (i : String)
    (h : countId (allLists q) i = 0) : q.getTask i = none := by
  rw [allLists] at h
  simp only [countId_append] at h
  have h1 : findById q.active i = none := by
    rw [findById_eq_none_iff]; omega
  have h2 : findById q.critical i = none := by
    rw [findById_eq_none_iff]; omega
  have h3 : findById q.high i = none := by
    rw [findById_eq_none_iff]; omega
  have h4 : findById q.medium i = none := by
    rw [findById_eq_none_iff]; omega
  have h5 : findById q.low i = none := by
    rw [findById_eq_none_iff]; omega
  have h6 : findById q.completed i = none := by
    rw [findById_eq_none_iff]; omega
  simp [TaskQueue.getTask, h1, h2, h3, h4, h5, h6]

lemma countId_overwrite (l : List QTask) (i j : String) (st : TaskStatus) :
    countId (l.map (fun t => if t.id = i then { t with status := st } else t)) j
      = countId l j := by
  induction l with
  | nil => simp [countId]
  | cons x xs ih =>
    by_cases hx : x.id = i <;>
      simp [countId, List.countP_cons, hx] at ih ⊢ <;> omega

lemma countId_eq_zero_of_not_hasId (l : List QTask) (i : String)
    (h : ¬ hasId l i = true) : countId l i = 0 := by
  by_contra hne
  exact h ((hasId_iff_countId_pos l i).mpr (Nat.pos_of_ne_zero hne))

lemma removeTask_count_drop (q : TaskQueue) (i : String)
    (hin : 0 < countId (q.active ++ q.critical ++ q.high ++ q.medium ++ q.low) i) :
    countId (allLists (q.removeTask i).2) i = countId (allLists q) i - 1 := by
  have htot : countId (allLists q) i
      = countId q.active i + countId q.critical i + countId q.high i
        + countId q.medium i + countId q.low i + countId q.completed i := by
    rw [allLists]
    simp only [countId_append]
  simp only [countId_append] at hin
  unfold TaskQueue.removeTask
  cases h1 : hasId q.active i with
  | true =>
    have := (hasId_iff_countId_pos q.active i).mp h1
    have he := countId_eraseP q.active i h1
    rw [allLists]
    simp only [h1, if_true, countId_append, he]
    omega
  | false =>
  cases h2 : hasId q.critical i with
  | true =>
    have := (hasId_iff_countId_pos q.critical i).mp h2
    have he := countId_eraseP q.critical i h2
    rw [allLists]
    simp only [h1, h2, if_true, Bool.false_eq_true, if_false, countId_append, he]
    omega
  | false =>
  cases h3 : hasId q.high i with
  | true =>
    have := (hasId_iff_countId_pos q.high i).mp h3
    have he := countId_eraseP q.high i h3
    rw [allLists]
    simp only [h1, h2, h3, if_true, Bool.false_eq_true, if_false,
      countId_append, he]
    omega
  | false =>
  cases h4 : hasId q.medium i with
  | true =>
    have := (hasId_iff_countId_pos q.medium i).mp h4
    have he := countId_eraseP q.medium i h4
    rw [allLists]
    simp only [h1, h2, h3, h4, if_true, Bool.false_eq_true, if_false,
      countId_append, he]
    omega
  | false =>
  cases h5 : hasId q.low i with
  | true =>
    have := (hasId_iff_countId_pos q.low i).mp h5
    have he := countId_eraseP q.low i h5
    rw [allLists]
    simp only [h1, h2, h3, h4, h5, if_true, Bool.false_eq_true, if_false,
      countId_append, he]
    omega
  | false =>
    exfalso
    have z1 := countId_eq_zero_of_not_hasId q.active i (by simp [h1])
    have z2 := countId_eq_zero_of_not_hasId q.critical i (by simp [h2])
    have z3 := countId_eq_zero_of_not_hasId q.high i (by simp [h3])
    have z4 := countId_eq_zero_of_not_hasId q.medium i (by simp [h4])
    have z5 := countId_eq_zero_of_not_hasId q.low i (by simp [h5])
    omega

lemma cancelTask_of_getTask_none (q : TaskQueue) (i : String)
    (h : q.getTask i = none) : cancelTask q i = (false, q) := by
  unfold cancelTask
  rw [h]

lemma cancelTask_of_getTask_some (q : TaskQueue) (i : String) (t : QTask)
    (h : q.getTask i = some t) :
    cancelTask q i =
      if t.status = TaskStatus.PENDING ∨ t.status = TaskStatus.ASSIGNED then
        (true, overwriteStatus (q.removeTask i).2 i TaskStatus.CANCELLED)
      else (false, q) := by
  unfold cancelTask
  rw [h]

lemma overwriteStatus_completed (q : TaskQueue) (i : String)
    (st : TaskStatus) :
    (overwriteStatus q i st).completed
      = q.completed.map
          (fun t => if t.id = i then { t with status := st } else t) := rfl

lemma countId_allLists_overwrite (q : TaskQueue) (i j : String)
    (st : TaskStatus) :
    countId (allLists (overwriteStatus q i st)) j = countId (allLists q) j := by
  simp [allLists, overwriteStatus, countId_append, countId_overwrite]

lemma removeTask_completed (q : TaskQueue) (i : String) :
    ((q.removeTask i).2).completed = q.completed := by
  unfold TaskQueue.removeTask
  cases h1 : hasId q.active i <;> cases h2 : hasId q.critical i <;>
    cases h3 : hasId q.high i <;> cases h4 : hasId q.medium i <;>
    cases h5 : hasId q.low i <;>
      simp [h1, h2, h3, h4, h5]

lemma overwrite_marks_container (l : List QTask) (i : String)
    (st : TaskStatus) :
    ∀ t ∈ l.map (fun u => if u.id = i then { u with status := st } else u),
      t.id = i → t.status = st := by
  intro t ht hid
  rcases List.mem_map.mp ht with ⟨u, -, rfl⟩
  by_cases hu : u.id = i
  · simp [hu]
  · rw [if_neg hu] at hid ⊢
    exact absurd hid hu

lemma overwrite_marks (q : TaskQueue) (i : String) (st : TaskStatus) :
    ∀ t ∈ allLists (overwriteStatus q i st), t.id = i → t.status = st := by
  intro t ht hid
  rw [allLists] at ht
  simp only [overwriteStatus] at ht
  simp only [List.mem_append, or_assoc] at ht
  rcases ht with h | h | h | h | h | h <;>
    exact overwrite_marks_container _ i st t h hid

lemma cancel_true_count_drop (q : TaskQueue) (i : String)
    (hc : (cancelTask q i).1 = true)
    (hnc : findById q.completed i = none) :
    countId (allLists (cancelTask q i).2) i = countId (allLists q) i - 1 := by
  rcases hg : q.getTask i with _ | t
  · rw [cancelTask_of_getTask_none q i hg] at hc
    simp at hc
  rw [cancelTask_of_getTask_some q i t hg] at hc ⊢
  by_cases hs : t.status = TaskStatus.PENDING ∨ t.status = TaskStatus.ASSIGNED
  · simp only [hs, if_true]
    obtain ⟨hmem, hid⟩ := getTask_some q i t hg
    have hnotc : t ∉ q.completed := by
      intro htc
      rw [findById_eq_none_iff] at hnc
      have hposc : 0 < countId q.completed i := by
        rw [countId, List.countP_pos_iff]
        exact ⟨t, htc, by simp [hid]⟩
      omega
    have hfront : t ∈ q.active ++ q.critical ++ q.high ++ q.medium ++ q.low := by
      rw [allLists] at hmem
      simp only [List.mem_append] at hmem ⊢
      tauto
    have hpos : 0 < countId (q.active ++ q.critical ++ q.high ++ q.medium ++ q.low) i := by
      rw [countId, List.countP_pos_iff]
      exact ⟨t, hfront, by simp [hid]⟩
    rw [countId_allLists_overwrite]
    exact removeTask_count_drop q i hpos
  · simp [hs] at hc

end Swamps

/-- Concrete single-copy queue used to witness the cancellation
theorems. -/
def Swamps.wqueue : Swamps.TaskQueue :=
  ⟨[], [], [⟨"t1", Swamps.TaskPriority.MEDIUM, Swamps.TaskStatus.PENDING⟩],
    [], [], []⟩

namespace Swamps

/-! ## Agent registry load counters
(backend/src/orchestration/AgentRegistry.ts) and the orchestrator's
per-task processing (backend/src/orchestration/Orchestrator.ts).

The registry `metadata` Map is modelled by its per-agent `currentLoad`
counters (registeredAt and lastActive are never read by the verified
code paths).  Agent status bookkeeping does not feed back into the load
counters and is omitted. -/

/-- AgentRegistry.incrementLoad: bump the counter when the agent has a
metadata entry, otherwise do nothing. -/
def incrementLoad (loads : List (String × Nat)) (aid : String) :
    List (String × Nat) :=
  loads.map (fun p => if p.1 = aid then (p.1, p.2 + 1) else p)

/-- AgentRegistry.decrementLoad: decrement only when the entry exists
and the counter is positive. -/
def decrementLoad (loads : List (String × Nat)) (aid : String) :
    List (String × Nat) :=
  loads.map (fun p => if p.1 = aid ∧ 0 < p.2 then (p.1, p.2 - 1) else p)

/-- AgentRegistry.getCurrentLoad: `metadata.get(id)?.currentLoad || 0`. -/
def getCurrentLoad (loads : List (String × Nat)) (aid : String) : Nat :=
  match loads.find? (fun p => p.1 = aid) with
  | some p => p.2
  | none => 0

/-- Map.set on a string-keyed association list: overwrite in place or
append. -/
def setKV {α : Type} (l : List (String × α)) (k : String) (v : α) :
    List (String × α) :=
  if l.any (fun p => p.1 = k) then
    l.map (fun p => if p.1 = k then (k, v) else p)
  else l ++ [(k, v)]

/-- TaskQueue.updateTaskStatus: if the task is tracked, write the new
status through the shared reference; on a terminal status additionally
delete the task from `activeTasks` and store it in `completedTasks`. -/
def TaskQueue.updateTaskStatus (q : TaskQueue) (i : String)
    (st : TaskStatus) : TaskQueue :=
  match q.getTask i with
  | none => q
  | some t =>
    let q2 := overwriteStatus q i st
    match st with
    | .COMPLETED | .FAILED | .CANCELLED =>
      let t2 : QTask := { t with status := st }
      let q3 := { q2 with active := q2.active.eraseP (fun u => u.id = i) }
      { q3 with completed := setById q3.completed t2 }
    | _ => q2

/-- The part of a TaskResult that later code reads (the result payload
and timing are opaque). -/
structure TaskResult where
  taskId : String
  success : Bool
  error : Option String
  agentId : String
deriving DecidableEq, Repr

/-- Orchestrator state touched by processTask: the task queue, the
`taskResults` Map and the registry load counters. -/
structure OrchState where
  queue : TaskQueue
  results : List (String × TaskResult)
  loads : List (String × Nat)
deriving Repr

/-- Resolution of the one fallible operation inside processTask's try
block, the `await agent.processTask(task)` call: the agent either
resolves with a TaskResult (success flag and optional error) or
rejects. -/
inductive ExecOutcome where
  | result (success : Bool) (error : Option String)
  | thrown
deriving DecidableEq, Repr

/-- Orchestrator.processTask for one dequeued task.  `selected` is what
`agentSelector.selectAgent(task)` returned.  With no agent the task is
re-enqueued (after a delay).  Otherwise the task is marked ASSIGNED,
the agent's load incremented, the task marked IN_PROGRESS, and the
agent executes: on a resolved result it is recorded, the task moves to
COMPLETED or FAILED, and the load is decremented; on a rejection the
catch block marks the task FAILED and, because `task.assignedAgentId`
was set before the try block could fail, decrements the same agent's
load. -/
def processTask (st : OrchState) (task : QTask) (selected : Option String)
    (outcome : ExecOutcome) : OrchState :=
  match selected with
  | none => { st with queue := st.queue.enqueue task }
  | some aid =>
    let q1 := st.queue.updateTaskStatus task.id .ASSIGNED
    let ld1 := incrementLoad st.loads aid
    let q2 := q1.updateTaskStatus task.id .IN_PROGRESS
    match outcome with
    | .result success err =>
      let q3 := q2.updateTaskStatus task.id
        (if success then .COMPLETED else .FAILED)
      { queue := q3,
        results := setKV st.results task.id ⟨task.id, success, err, aid⟩,
        loads := decrementLoad ld1 aid }
    | .thrown =>
      let q3 := q2.updateTaskStatus task.id .FAILED
      { queue := q3, results := st.results, loads := decrementLoad ld1 aid }

/-- The task submitTask builds for the duplicate-state scenario. -/
def reqTask : QTask := ⟨"t1", .MEDIUM, .PENDING⟩

/-- A reachable orchestrator state in which one task is tracked twice:
submitTask enqueues the task, the processing loop dequeues it (moving
it into `activeTasks` — TaskQueue.dequeue never removes it from there),
and processTask with no selectable agent re-enqueues it into its
priority sub-queue without touching `activeTasks`. -/
def dupState : OrchState :=
  processTask ⟨((TaskQueue.empty.enqueue reqTask).dequeue).2, [], []⟩
    reqTask none (ExecOutcome.result true none)

/-- The queue of that state: `reqTask` sits in both `activeTasks` and
the MEDIUM sub-queue. -/
def dupQueue : TaskQueue := dupState.queue

lemma decrement_increment_cancel (loads : List (String × Nat))
    (aid : String) :
    decrementLoad (incrementLoad loads aid) aid = loads := by
  induction loads with
  | nil => rfl
  | cons p rest ih =>
    obtain ⟨k, v⟩ := p
    unfold incrementLoad decrementLoad at ih ⊢
    by_cases hp : k = aid
    · simp only [List.map_cons, hp, if_true, if_pos, Nat.add_sub_cancel]
      rw [List.cons_eq_cons]
      refine ⟨by simp, ?_⟩
      simpa using ih
    · simp only [List.map_cons, hp, if_false]
      rw [List.cons_eq_cons]
      constructor
      · simp [hp]
      · simpa using ih

end Swamps

namespace Swamps

/-! ## Agent selector (backend/src/orchestration/AgentSelector.ts)

Scores are rational numbers; `successRate` is stored by Agent.ts as
`successfulTasks / totalTasks` and is carried here as a field.  The
registry is seen by the selector through `getAllAgents()` (a list of
agent ids in registration order) and `getCurrentLoad`. -/

/-- AgentCapabilities fields read by the selector (shared/types.ts). -/
structure AgentCapabilities where
  skills : List String
  supportedTaskTypes : List String
  maxConcurrentTasks : Nat
deriving DecidableEq, Repr

/-- PerformanceMetrics fields read by the selector. -/
structure PerformanceMetrics where
  totalTasks : Nat
  successfulTasks : Nat
  failedTasks : Nat
  successRate : ℚ
  taskTypeMetrics : List (String × Nat)
deriving DecidableEq, Repr

/-- The agent fields the selector reads. -/
structure AgentA where
  id : String
  capabilities : AgentCapabilities
  metrics : PerformanceMetrics
deriving DecidableEq, Repr

/-- The task fields the selector reads. -/
structure STask where
  type : String
  requiredCapabilities : List String
deriving DecidableEq, Repr

/-- The selector's scoring weights, at their default values. -/
structure ScoringWeights where
  specialization : ℚ
  historicalSuccess : ℚ
  availability : ℚ
  recentPerformance : ℚ
  loadBalance : ℚ
deriving DecidableEq, Repr

/-- The weight vector AgentSelector is constructed with. -/
def defaultWeights : ScoringWeights :=
  ⟨35/100, 25/100, 20/100, 15/100, 5/100⟩

/-- AgentSelector.getSpecializationScore: 0.3 when the agent's
supported task types do not include the task's type; otherwise 0.8 when
the task declares no required capabilities, else the fraction of the
(distinct, per the `new Set`) required capabilities found among the
agent's skills. -/
def getSpecializationScore (ag : AgentA) (task : STask) : ℚ :=
  if ¬ (task.type ∈ ag.capabilities.supportedTaskTypes) then 3/10
  else
    let req := task.requiredCapabilities.dedup
    if req.length = 0 then 8/10
    else ((req.filter (fun c => c ∈ ag.capabilities.skills)).length : ℚ)
      / (req.length : ℚ)

/-- AgentSelector.getHistoricalSuccessScore: the success rate when the
agent has handled this task type, 0.7 times the success rate with only
generic history, 0.5 with no history. -/
def getHistoricalSuccessScore (ag : AgentA) (task : STask) : ℚ :=
  let typeCount :=
    ((ag.metrics.taskTypeMetrics.find? (fun p => p.1 = task.type)).map
      Prod.snd).getD 0
  if 0 < typeCount ∧ 0 < ag.metrics.totalTasks then ag.metrics.successRate
  else if 0 < ag.metrics.totalTasks then ag.metrics.successRate * (7/10)
  else 1/2

/-- AgentSelector.getAvailabilityScore:
`1 - currentLoad / maxConcurrentTasks`, 0 at or above capacity. -/
def getAvailabilityScore (loads : List (String × Nat)) (ag : AgentA) : ℚ :=
  let currentLoad := getCurrentLoad loads ag.id
  let capacity := ag.capabilities.maxConcurrentTasks
  if capacity ≤ currentLoad then 0
  else 1 - (currentLoad : ℚ) / (capacity : ℚ)

/-- AgentSelector.getRecentPerformanceScore: the overall success rate
is used as a proxy. -/
def getRecentPerformanceScore (ag : AgentA) : ℚ :=
  ag.metrics.successRate

/-- AgentSelector.getLoadBalanceScore: 1 below the registry-wide
average load, 0.5 at the average, decaying toward 0 above it. -/
def getLoadBalanceScore (loads : List (String × Nat))
    (agentIds : List String) (ag : AgentA) : ℚ :=
  let currentLoad := getCurrentLoad loads ag.id
  if agentIds.length = 0 then 1
  else
    let avgLoad : ℚ :=
      (agentIds.map (fun a => (getCurrentLoad loads a : ℚ))).sum
        / (agentIds.length : ℚ)
    if (currentLoad : ℚ) < avgLoad then 1
    else if (currentLoad : ℚ) = avgLoad then 1/2
    else max 0 (1 - ((currentLoad : ℚ) - avgLoad) / avgLoad)

/-- The weighted sum at the heart of AgentSelector.calculateScore. -/
def calculateScoreFrom (w : ScoringWeights) (s h a p l : ℚ) : ℚ :=
  s * w.specialization + h * w.historicalSuccess + a * w.availability
    + p * w.recentPerformance + l * w.loadBalance

/-- AgentSelector.calculateScore: the weighted sum of the five factor
scores under the default weights. -/
def calculateScore (loads : List (String × Nat)) (agentIds : List String)
    (ag : AgentA) (task : STask) : ℚ :=
  calculateScoreFrom defaultWeights
    (getSpecializationScore ag task)
    (getHistoricalSuccessScore ag task)
    (getAvailabilityScore loads ag)
    (getRecentPerformanceScore ag)
    (getLoadBalanceScore loads agentIds ag)

end Swamps

namespace Swamps

lemma list_single_le_sum (l : List ℚ) (hpos : ∀ x ∈ l, 0 ≤ x)
    (a : ℚ) (ha : a ∈ l) : a ≤ l.sum := by
  induction l with
  | nil => simp at ha
  | cons x rest ih =>
    rcases List.mem_cons.mp ha with h | h
    · subst h
      have : 0 ≤ rest.sum :=
        List.sum_nonneg (fun y hy => hpos y (List.mem_cons_of_mem _ hy))
      simp [List.sum_cons]
      linarith
    · have hx := hpos x (List.mem_cons_self _ _)
      have := ih (fun y hy => hpos y (List.mem_cons_of_mem _ hy)) h
      simp [List.sum_cons]
      linarith

lemma list_sum_nonneg_q (l : List ℚ) (hpos : ∀ x ∈ l, 0 ≤ x) :
    0 ≤ l.sum :=
  List.sum_nonneg hpos

lemma spec_score_bounds (ag : AgentA) (task : STask) :
    0 ≤ getSpecializationScore ag task ∧ getSpecializationScore ag task ≤ 1 := by
  unfold getSpecializationScore
  by_cases ht : task.type ∈ ag.capabilities.supportedTaskTypes
  · simp only [ht, not_true, if_false, if_neg]
    by_cases hz : task.requiredCapabilities.dedup.length = 0
    · simp [hz]
      norm_num
    · simp only [hz, if_false]
      have hlen : 0 < (task.requiredCapabilities.dedup.length : ℚ) := by
        have : 0 < task.requiredCapabilities.dedup.length := Nat.pos_of_ne_zero hz
        exact_mod_cast this
      have hle : (task.requiredCapabilities.dedup.filter
            (fun c => c ∈ ag.capabilities.skills)).length
          ≤ task.requiredCapabilities.dedup.length :=
        List.length_filter_le _ _
      constructor
      · positivity
      · rw [div_le_one hlen]
        exact_mod_cast hle
  · simp [ht]
    norm_num

lemma hist_score_bounds (ag : AgentA) (task : STask)
    (h0 : 0 ≤ ag.metrics.successRate) (h1 : ag.metrics.successRate ≤ 1) :
    0 ≤ getHistoricalSuccessScore ag task
      ∧ getHistoricalSuccessScore ag task ≤ 1 := by
  unfold getHistoricalSuccessScore
  dsimp only
  by_cases hA :
      0 < ((ag.metrics.taskTypeMetrics.find?
          (fun p => p.1 = task.type)).map Prod.snd).getD 0
        ∧ 0 < ag.metrics.totalTasks
  · rw [if_pos hA]
    exact ⟨h0, h1⟩
  · rw [if_neg hA]
    by_cases hB : 0 < ag.metrics.totalTasks
    · rw [if_pos hB]
      exact ⟨by positivity, by nlinarith⟩
    · rw [if_neg hB]
      norm_num

lemma avail_score_bounds (loads : List (String × Nat)) (ag : AgentA) :
    0 ≤ getAvailabilityScore loads ag ∧ getAvailabilityScore loads ag ≤ 1 := by
  unfold getAvailabilityScore
  dsimp only
  by_cases hc : ag.capabilities.maxConcurrentTasks ≤ getCurrentLoad loads ag.id
  · rw [if_pos hc]
    norm_num
  · rw [if_neg hc]
    push_neg at hc
    have hlt := hc
    have hcap : 0 < (ag.capabilities.maxConcurrentTasks : ℚ) := by
      have : 0 < ag.capabilities.maxConcurrentTasks := by omega
      exact_mod_cast this
    have hload : (0 : ℚ) ≤ (getCurrentLoad loads ag.id : ℚ) := by positivity
    have hfrac : (getCurrentLoad loads ag.id : ℚ)
        / (ag.capabilities.maxConcurrentTasks : ℚ) ≤ 1 := by
      rw [div_le_one hcap]
      exact_mod_cast le_of_lt hlt
    have hfrac0 : 0 ≤ (getCurrentLoad loads ag.id : ℚ)
        / (ag.capabilities.maxConcurrentTasks : ℚ) := by positivity
    constructor <;> linarith

lemma loadbal_score_bounds (loads : List (String × Nat))
    (agentIds : List String) (ag : AgentA) (hmem : ag.id ∈ agentIds) :
    0 ≤ getLoadBalanceScore loads agentIds ag
      ∧ getLoadBalanceScore loads agentIds ag ≤ 1 := by
  unfold getLoadBalanceScore
  by_cases hn : agentIds.length = 0
  · simp [hn]
  simp only [hn, if_false]
  set cur : ℚ := (getCurrentLoad loads ag.id : ℚ) with hcur
  set avg : ℚ := ((agentIds.map (fun a => (getCurrentLoad loads a : ℚ))).sum
      / (agentIds.length : ℚ)) with havg
  by_cases hlt : cur < avg
  · simp [hlt]
  simp only [hlt, if_false]
  by_cases heq : cur = avg
  · simp [heq]
    norm_num
  simp only [heq, if_false]
  have hgt : avg < cur := lt_of_le_of_ne (not_lt.mp hlt) (fun h => heq h.symm)
  have hsum0 : 0 ≤ (agentIds.map (fun a => (getCurrentLoad loads a : ℚ))).sum := by
    apply list_sum_nonneg_q
    intro x hx
    rcases List.mem_map.mp hx with ⟨a, -, rfl⟩
    positivity
  have hlen : 0 < (agentIds.length : ℚ) := by
    have : 0 < agentIds.length := Nat.pos_of_ne_zero hn
    exact_mod_cast this
  have havg0 : 0 ≤ avg := by
    rw [havg]
    positivity
  have havgpos : 0 < avg := by
    rcases lt_or_eq_of_le havg0 with h | h
    · exact h
    · exfalso
      have hcurmem : cur ∈ agentIds.map (fun a => (getCurrentLoad loads a : ℚ)) :=
        List.mem_map.mpr ⟨ag.id, hmem, rfl⟩
      have hcle : cur ≤ (agentIds.map (fun a => (getCurrentLoad loads a : ℚ))).sum := by
        apply list_single_le_sum _ _ _ hcurmem
        intro x hx
        rcases List.mem_map.mp hx with ⟨a, -, rfl⟩
        positivity
      have hsumz : (agentIds.map (fun a => (getCurrentLoad loads a : ℚ))).sum = 0 := by
        have := h.symm
        rw [havg] at this
        field_simp at this
        exact this
      have hcur0 : (0 : ℚ) ≤ cur := by rw [hcur]; positivity
      rw [hsumz] at hcle
      have : cur = 0 := le_antisymm hcle hcur0
      rw [this, ← h] at hgt
      exact lt_irrefl _ hgt
  constructor
  · exact le_max_left _ _
  · have hdiv : 0 ≤ (cur - avg) / avg := by
      apply div_nonneg _ (le_of_lt havgpos)
      linarith
    rw [max_le_iff]
    constructor <;> linarith

lemma score_from_bounds (s h a p l : ℚ)
    (hs : 0 ≤ s ∧ s ≤ 1) (hh : 0 ≤ h ∧ h ≤ 1) (ha : 0 ≤ a ∧ a ≤ 1)
    (hp : 0 ≤ p ∧ p ≤ 1) (hl : 0 ≤ l ∧ l ≤ 1) :
    0 ≤ calculateScoreFrom defaultWeights s h a p l
      ∧ calculateScoreFrom defaultWeights s h a p l ≤ 1 := by
  unfold calculateScoreFrom defaultWeights
  obtain ⟨hs0, hs1⟩ := hs
  obtain ⟨hh0, hh1⟩ := hh
  obtain ⟨ha0, ha1⟩ := ha
  obtain ⟨hp0, hp1⟩ := hp
  obtain ⟨hl0, hl1⟩ := hl
  constructor
  · simp only
    positivity
  · simp only
    nlinarith

end Swamps

namespace Swamps

/-! ## Workflow engine
(backend/src/orchestration/WorkflowManagementSystem.ts)

`executeWorkflowSteps` walks the template's step array in order,
checking dependencies, submitting one task per step to the orchestrator
(each submission mints a fresh uuid, modelled by a counter) and waiting
for it.  The wait resolves to a TaskResult or rejects (timeout), both
captured by an outcome oracle indexed by task id.  The model returns
the final execution object, the chronological list of
(step index, task id) submissions, and the error with which
`executeWorkflowSteps` rejected, if any. -/

/-- Per-step execution status (shared/types.ts WorkflowStepExecution). -/
inductive StepStatus where
  | pending | running | completed | failed
deriving DecidableEq, Repr

/-- Overall execution status (shared/types.ts WorkflowExecution). -/
inductive WStatus where
  | pending | running | completed | failed
deriving DecidableEq, Repr

/-- A workflow template step: the fields the executor reads. -/
structure WStep where
  id : String
  name : String
  dependencies : List String
  inputs : List (String × String)
deriving DecidableEq, Repr

/-- A WorkflowStepExecution record. -/
structure WStepExec where
  stepId : String
  status : StepStatus
  taskId : Option Nat
  assignedAgentId : Option String
  result : Option String
  error : Option String
deriving DecidableEq, Repr

/-- A WorkflowExecution record (ids and timestamps other than the
completion stamp are opaque; `completedAt` keeps only presence). -/
structure WExec where
  status : WStatus
  currentStep : Nat
  steps : List WStepExec
  results : List (String × String)
  completedAt : Option Unit
deriving DecidableEq, Repr

/-- What `await orchestrator.waitForTask(taskId, 300000)` does for a
given task id: resolve with a TaskResult (success flag, result payload,
optional error string) or reject (for example on timeout). -/
inductive WaitOutcome where
  | result (success : Bool) (payload : String) (error : Option String)
  | thrown (msg : String)
deriving DecidableEq, Repr

/-- Whether the outcome is a successful TaskResult. -/
def WaitOutcome.isSuccess : WaitOutcome → Bool
  | .result true _ _ => true
  | _ => false

/-- JavaScript template interpolation of a possibly-undefined string. -/
def optStr : Option String → String
  | some s => s
  | none => "undefined"

/-- Association-list lookup (Map.get / object index). -/
def lookupKV {α : Type} (l : List (String × α)) (k : String) : Option α :=
  (l.find? (fun p => p.1 = k)).map Prod.snd

/-- Functional update of the i-th element of a list. -/
def modifyAt {α : Type} : List α → Nat → (α → α) → List α
  | [], _, _ => []
  | x :: xs, 0, f => f x :: xs
  | x :: xs, n + 1, f => x :: modifyAt xs n f

/-- WorkflowManagementSystem.checkDependencies: every dependency id
must name a step execution whose status is completed. -/
def checkDependencies (s : WStep) (e : WExec) : Bool :=
  s.dependencies.all (fun d =>
    match e.steps.find? (fun se => se.stepId = d) with
    | some ds => ds.status = StepStatus.completed
    | none => false)

/-- WorkflowManagementSystem.prepareStepInputs: a value of the form
`from_X` pulls step X's stored result, the value `input` pulls the
like-named initial input, anything else passes through.  The prepared
inputs only feed the submitted task's description text, which none of
the verified properties read. -/
def prepareStepInputs (s : WStep) (e : WExec) :
    List (String × Option String) :=
  s.inputs.map (fun kv =>
    if kv.2.startsWith "from_" then (kv.1, lookupKV e.results (kv.2.drop 5))
    else if kv.2 = "input" then (kv.1, lookupKV e.results kv.1)
    else (kv.1, some kv.2))

/-- The body of executeWorkflowSteps from step `i` onward: `rest` is
the remaining suffix of the template's step array, `fresh` the next
task id.  Returns the execution object, the submissions in
chronological order, and the error the promise rejected with (none when
every step completed and the execution was stamped completed).  On a
failed TaskResult the step's error field receives the message of the
thrown `Step <id> failed: <error>` (the catch block overwrites the
error the inner branch stored), and the error propagates.  On a
rejection of the wait, the catch block records the message and
rethrows. -/
def runSteps (oracle : Nat → WaitOutcome) :
    List WStep → Nat → WExec → Nat → WExec × List (Nat × Nat) × Option String
  | [], _, e, _ =>
    ({ e with status := .completed, completedAt := some () }, [], none)
  | s :: rest, i, e, fresh =>
    if checkDependencies s e = true then
      let e1 : WExec :=
        { e with
          steps := modifyAt e.steps i (fun se => { se with status := .running }),
          currentStep := i }
      let tid := fresh
      let e2 : WExec :=
        { e1 with
          steps := modifyAt e1.steps i (fun se =>
            { se with
              taskId := some tid,
              assignedAgentId := some "auto-assigned" }) }
      match oracle tid with
      | .result true payload _ =>
        let e3 : WExec :=
          { e2 with
            steps := modifyAt e2.steps i (fun se =>
              { se with status := .completed, result := some payload }),
            results := setKV e2.results s.id payload }
        let r := runSteps oracle rest (i + 1) e3 (fresh + 1)
        (r.1, (i, tid) :: r.2.1, r.2.2)
      | .result false _ err =>
        let msg := "Step " ++ s.id ++ " failed: " ++ optStr err
        let e3 : WExec :=
          { e2 with
            steps := modifyAt e2.steps i (fun se =>
              { se with status := .failed, error := some msg }) }
        (e3, [(i, tid)], some msg)
      | .thrown msg =>
        let e3 : WExec :=
          { e2 with
            steps := modifyAt e2.steps i (fun se =>
              { se with status := .failed, error := some msg }) }
        (e3, [(i, tid)], some msg)
    else
      (e, [], some ("Dependencies not met for step " ++ s.id))

/-- executeWorkflow followed by executeWorkflowSteps: build the
execution (all steps pending, results seeded from the initial inputs),
run the steps, and on rejection apply the catch handler, which marks
the execution failed and stores the error message in the results map —
and nothing else. -/
def wInitExec (template : List WStep)
    (initialInputs : List (String × String)) : WExec :=
  { status := .running,
    currentStep := 0,
    steps := template.map (fun s => ⟨s.id, .pending, none, none, none, none⟩),
    results := initialInputs,
    completedAt := none }

def executeWorkflowModel (template : List WStep)
    (initialInputs : List (String × String)) (oracle : Nat → WaitOutcome) :
    WExec × List (Nat × Nat) :=
  let r := runSteps oracle template 0 (wInitExec template initialInputs) 0
  match r.2.2 with
  | some m =>
    ({ r.1 with status := .failed, results := setKV r.1.results "error" m },
      r.2.1)
  | none => (r.1, r.2.1)

end Swamps

namespace Swamps

lemma modifyAt_length {α : Type} (l : List α) (i : Nat) (f : α → α) :
    (modifyAt l i f).length = l.length := by
  induction l generalizing i with
  | nil => rfl
  | cons x xs ih =>
    cases i with
    | zero => rfl
    | succ n => simp [modifyAt, ih]

lemma modifyAt_get?_ne {α : Type} (l : List α) (i j : Nat) (f : α → α)
    (h : j ≠ i) : (modifyAt l i f).get? j = l.get? j := by
  induction l generalizing i j with
  | nil => rfl
  | cons x xs ih =>
    cases i with
    | zero =>
      cases j with
      | zero => exact absurd rfl h
      | succ m => rfl
    | succ n =>
      cases j with
      | zero => rfl
      | succ m =>
        simp only [modifyAt, List.get?_cons_succ]
        exact ih n m (fun hh => h (by omega))

lemma modifyAt_get?_eq {α : Type} (l : List α) (i : Nat) (f : α → α) :
    (modifyAt l i f).get? i = (l.get? i).map f := by
  induction l generalizing i with
  | nil => rfl
  | cons x xs ih =>
    cases i with
    | zero => rfl
    | succ n => simpa [modifyAt] using ih n

lemma find_map_replace {α : Type} (k : String) (v : α)
    (l : List (String × α)) (h : l.any (fun p => p.1 = k) = true) :
    ((l.map (fun p => if p.1 = k then (k, v) else p)).find?
        (fun p => p.1 = k)).map Prod.snd = some v := by
  induction l with
  | nil => simp at h
  | cons p tl ih =>
    by_cases hp : p.1 = k
    · simp [hp, List.find?_cons]
    · have htl : tl.any (fun p => p.1 = k) = true := by
        simp [List.any_cons, hp] at h
        simpa using h
      simpa [hp, List.find?_cons] using ih htl

lemma lookupKV_setKV {α : Type} (l : List (String × α)) (k : String)
    (v : α) : lookupKV (setKV l k v) k = some v := by
  unfold setKV lookupKV
  by_cases hany : l.any (fun p => p.1 = k) = true
  · rw [if_pos hany]
    exact find_map_replace k v l hany
  · rw [if_neg hany]
    have hnone : l.find? (fun p => p.1 = k) = none := by
      rw [List.find?_eq_none]
      intro p hp
      simp only [Bool.not_eq_true]
      by_contra hc
      exact hany (List.any_eq_true.mpr ⟨p, hp, by simpa using hc⟩)
    rw [List.find?_append, hnone]
    simp

lemma runSteps_subs_lower (oracle : Nat → WaitOutcome)
    (rest : List WStep) (i : Nat) (e : WExec) (fresh : Nat) :
    ∀ p ∈ (runSteps oracle rest i e fresh).2.1, i ≤ p.1 := by
  induction rest generalizing i e fresh with
  | nil => simp [runSteps]
  | cons s rest' ih =>
    by_cases hdep : checkDependencies s e = true
    · rcases ho : oracle fresh with ⟨succ, payload, err⟩ | msg
      · cases succ
        · intro p hp
          simp [runSteps, hdep, ho] at hp
          subst hp
          simp
        · intro p hp
          simp only [runSteps, hdep, if_true, ho] at hp
          rcases List.mem_cons.mp hp with hh | hh
          · subst hh; exact le_refl i
          · have := ih (i + 1) _ (fresh + 1) p hh
            omega
      · intro p hp
        simp [runSteps, hdep, ho] at hp
        subst hp
        simp
    · intro p hp
      simp [runSteps, hdep] at hp

lemma runSteps_subs_pairwise (oracle : Nat → WaitOutcome)
    (rest : List WStep) (i : Nat) (e : WExec) (fresh : Nat) :
    ((runSteps oracle rest i e fresh).2.1.map Prod.fst).Pairwise (· < ·) := by
  induction rest generalizing i e fresh with
  | nil => simp [runSteps]
  | cons s rest' ih =>
    by_cases hdep : checkDependencies s e = true
    · rcases ho : oracle fresh with ⟨succ, payload, err⟩ | msg
      · cases succ
        · simp [runSteps, hdep, ho]
        · simp only [runSteps, hdep, if_true, ho, List.map_cons]
          rw [List.pairwise_cons]
          constructor
          · intro b hb
            rcases List.mem_map.mp hb with ⟨p, hp, rfl⟩
            have := runSteps_subs_lower oracle rest' (i + 1) _ (fresh + 1) p hp
            omega
          · exact ih (i + 1) _ (fresh + 1)
      · simp [runSteps, hdep, ho]
    · simp [runSteps, hdep]

lemma runSteps_none_completed (oracle : Nat → WaitOutcome)
    (rest : List WStep) (i : Nat) (e : WExec) (fresh : Nat) :
    (runSteps oracle rest i e fresh).2.2 = none →
    (runSteps oracle rest i e fresh).1.status = WStatus.completed := by
  induction rest generalizing i e fresh with
  | nil => intro hnone; simp [runSteps]
  | cons s rest' ih =>
    by_cases hdep : checkDependencies s e = true
    · rcases ho : oracle fresh with ⟨succ, payload, err⟩ | msg
      · cases succ
        · intro hnone
          simp [runSteps, hdep, ho] at hnone
        · intro hnone
          simp only [runSteps, hdep, if_true, ho] at hnone ⊢
          exact ih (i + 1) _ (fresh + 1) hnone
      · intro hnone
        simp [runSteps, hdep, ho] at hnone
    · intro hnone
      simp [runSteps, hdep] at hnone

lemma runSteps_thrown_state (oracle : Nat → WaitOutcome)
    (rest : List WStep) (i : Nat) (e : WExec) (fresh : Nat)
    (hpend : ∀ j se, e.steps.get? j = some se → i ≤ j →
      se.status = StepStatus.pending)
    (hcur : i ≤ e.currentStep + 1) :
    ((runSteps oracle rest i e fresh).2.2).isSome = true →
      (runSteps oracle rest i e fresh).1.completedAt = e.completedAt
      ∧ ∀ j se,
          (runSteps oracle rest i e fresh).1.steps.get? j = some se →
          (runSteps oracle rest i e fresh).1.currentStep < j →
          se.status = StepStatus.pending := by
  induction rest generalizing i e fresh with
  | nil => intro hsome; simp [runSteps] at hsome
  | cons s rest' ih =>
    by_cases hdep : checkDependencies s e = true
    · rcases ho : oracle fresh with ⟨succ, payload, err⟩ | msg
      · cases succ
        · intro hsome
          simp only [runSteps, hdep, if_true, ho]
          try dsimp only
          constructor
          · trivial
          · intro j se hj hlt
            try dsimp only at hj hlt
            have hne : j ≠ i := by omega
            rw [modifyAt_get?_ne _ _ _ _ hne, modifyAt_get?_ne _ _ _ _ hne,
              modifyAt_get?_ne _ _ _ _ hne] at hj
            exact hpend j se hj (by omega)
        · intro hsome
          simp only [runSteps, hdep, if_true, ho] at hsome ⊢
          refine ih (i + 1) _ (fresh + 1) ?_ ?_ hsome
          · intro j se hj hge
            try dsimp only at hj hge
            have hne : j ≠ i := by omega
            rw [modifyAt_get?_ne _ _ _ _ hne, modifyAt_get?_ne _ _ _ _ hne,
              modifyAt_get?_ne _ _ _ _ hne] at hj
            exact hpend j se hj (by omega)
          · try dsimp only
            omega
      · intro hsome
        simp only [runSteps, hdep, if_true, ho]
        try dsimp only
        constructor
        · trivial
        · intro j se hj hlt
          try dsimp only at hj hlt
          have hne : j ≠ i := by omega
          rw [modifyAt_get?_ne _ _ _ _ hne, modifyAt_get?_ne _ _ _ _ hne,
            modifyAt_get?_ne _ _ _ _ hne] at hj
          exact hpend j se hj (by omega)
    · intro hsome
      simp only [runSteps]
      rw [if_neg hdep]
      constructor
      · trivial
      · intro j se hj hlt
        try dsimp only at hj hlt
        exact hpend j se hj (by omega)

end Swamps

namespace Swamps

lemma executeWorkflowModel_subs (template : List WStep)
    (inputs : List (String × String)) (oracle : Nat → WaitOutcome) :
    (executeWorkflowModel template inputs oracle).2
      = (runSteps oracle template 0 (wInitExec template inputs) 0).2.1 := by
  unfold executeWorkflowModel
  cases h : (runSteps oracle template 0 (wInitExec template inputs) 0).2.2 with
  | none => simp [h]
  | some m => simp [h]

end Swamps

namespace Swamps

/-- The inductive invariant tying an in-flight execution object to the
template and to the submissions already made (`hist`): step executions
carry the template's step ids positionally, everything from the cursor
on is still pending, and a completed step execution was submitted
earlier with a successful outcome. -/
def StepsInv (oracle : Nat → WaitOutcome) (template : List WStep)
    (e : WExec) (i : Nat) (hist : List (Nat × Nat)) : Prop :=
  (∀ k, (e.steps.get? k).map WStepExec.stepId
      = (template.get? k).map WStep.id)
  ∧ (∀ k se, e.steps.get? k = some se → i ≤ k →
      se.status = StepStatus.pending)
  ∧ (∀ k se, e.steps.get? k = some se → se.status = StepStatus.completed →
      ∃ t', (k, t') ∈ hist ∧ (oracle t').isSuccess = true)

lemma runSteps_deps_sound (oracle : Nat → WaitOutcome)
    (template : List WStep) :
    ∀ (rest : List WStep) (i : Nat) (e : WExec) (fresh : Nat)
      (hist : List (Nat × Nat)),
      template.drop i = rest →
      StepsInv oracle template e i hist →
      ∀ p ∈ (runSteps oracle rest i e fresh).2.1,
        ∀ s, template.get? p.1 = some s →
        ∀ d ∈ s.dependencies,
          ∃ j' t' sj, j' < p.1 ∧ template.get? j' = some sj ∧ sj.id = d
            ∧ ((j', t') ∈ hist
                ∨ (j', t') ∈ (runSteps oracle rest i e fresh).2.1)
            ∧ (oracle t').isSuccess = true := by
  intro rest
  induction rest with
  | nil =>
    intro i e fresh hist hrest hinv p hp
    simp [runSteps] at hp
  | cons s rest' ih =>
    intro i e fresh hist hrest hinv p hp
    obtain ⟨hids, hpend, hcomp⟩ := hinv
    have hstep_i : template.get? i = some s := by
      have h0 : (template.drop i).get? 0 = template.get? (i + 0) :=
        List.get?_drop template i 0
      rw [hrest] at h0
      simpa using h0.symm
    by_cases hdep : checkDependencies s e = true
    · have hdepwit : ∀ d ∈ s.dependencies,
          ∃ j' t' sj, j' < i ∧ template.get? j' = some sj ∧ sj.id = d
            ∧ (j', t') ∈ hist ∧ (oracle t').isSuccess = true := by
        intro d hd
        rw [checkDependencies, List.all_eq_true] at hdep
        have hcond := hdep d hd
        rcases hfind : e.steps.find? (fun se => se.stepId = d) with _ | ds
        · rw [hfind] at hcond
          exact absurd hcond Bool.false_ne_true
        · rw [hfind] at hcond
          have hds_status : ds.status = StepStatus.completed := by
            simpa using hcond
          have hds_id : ds.stepId = d := by
            have := List.find?_some hfind
            simpa using this
          have hds_mem : ds ∈ e.steps := List.mem_of_find?_eq_some hfind
          rcases List.get?_of_mem hds_mem with ⟨k, hk⟩
          have hklt : k < i := by
            by_contra hge
            push_neg at hge
            have := hpend k ds hk hge
            rw [hds_status] at this
            exact absurd this (by decide)
          rcases hcomp k ds hk hds_status with ⟨t', ht'mem, ht'succ⟩
          have hidk := hids k
          rw [hk] at hidk
          rcases htk : template.get? k with _ | sj
          · rw [htk] at hidk
            simp at hidk
          · rw [htk] at hidk
            simp at hidk
            refine ⟨k, t', sj, hklt, htk, ?_, ht'mem, ht'succ⟩
            rw [← hidk, hds_id]
      rcases ho : oracle fresh with ⟨succ, payload, err⟩ | msg
      · cases succ
        · -- failed TaskResult: exactly one submission, the head
          simp only [runSteps, hdep, if_true, ho] at hp ⊢
          simp only [List.mem_singleton] at hp
          subst hp
          intro s' hs' d hd
          rw [hstep_i] at hs'
          cases hs'
          rcases hdepwit d hd with ⟨j', t', sj, hj, htj, hid, hmem, hsucc⟩
          exact ⟨j', t', sj, hj, htj, hid, Or.inl hmem, hsucc⟩
        · -- successful TaskResult: head plus recursion
          have hrest' : template.drop (i + 1) = rest' := by
            have h' := List.drop_drop 1 i template
            rw [hrest] at h'
            simpa using h'.symm
          simp only [runSteps, hdep, if_true, ho] at hp ⊢
          set e3 : WExec :=
            { status := e.status,
              currentStep := i,
              steps := modifyAt (modifyAt (modifyAt e.steps i
                (fun se => { se with status := StepStatus.running })) i
                (fun se => { se with
                  taskId := some fresh,
                  assignedAgentId := some "auto-assigned" })) i
                (fun se => { se with
                  status := StepStatus.completed,
                  result := some payload }),
              results := setKV e.results s.id payload,
              completedAt := e.completedAt } with he3
          have hinv3 : StepsInv oracle template e3 (i + 1)
              (hist ++ [(i, fresh)]) := by
            refine ⟨?_, ?_, ?_⟩
            · intro k
              by_cases hk : k = i
              · subst hk
                rw [he3]
                dsimp only
                rw [modifyAt_get?_eq, modifyAt_get?_eq, modifyAt_get?_eq]
                have := hids k
                rcases hek : e.steps.get? k with _ | se
                · rw [hek] at this
                  simp at this ⊢
                  exact this
                · rw [hek] at this
                  simpa using this
              · rw [he3]
                dsimp only
                rw [modifyAt_get?_ne _ _ _ _ hk, modifyAt_get?_ne _ _ _ _ hk,
                  modifyAt_get?_ne _ _ _ _ hk]
                exact hids k
            · intro k se hk hge
              rw [he3] at hk
              dsimp only at hk
              have hkne : k ≠ i := by omega
              rw [modifyAt_get?_ne _ _ _ _ hkne, modifyAt_get?_ne _ _ _ _ hkne,
                modifyAt_get?_ne _ _ _ _ hkne] at hk
              exact hpend k se hk (by omega)
            · intro k se hk hst
              by_cases hkne : k = i
              · subst hkne
                exact ⟨fresh, by simp, by rw [ho]; rfl⟩
              · rw [he3] at hk
                dsimp only at hk
                rw [modifyAt_get?_ne _ _ _ _ hkne, modifyAt_get?_ne _ _ _ _ hkne,
                  modifyAt_get?_ne _ _ _ _ hkne] at hk
                rcases hcomp k se hk hst with ⟨t', ht'mem, ht'succ⟩
                exact ⟨t', List.mem_append_left _ ht'mem, ht'succ⟩
          rcases List.mem_cons.mp hp with hhd | htl
          · subst hhd
            intro s' hs' d hd
            rw [hstep_i] at hs'
            cases hs'
            rcases hdepwit d hd with ⟨j', t', sj, hj, htj, hid, hmem, hsucc⟩
            exact ⟨j', t', sj, hj, htj, hid, Or.inl hmem, hsucc⟩
          · intro s' hs' d hd
            have := ih (i + 1) e3 (fresh + 1) (hist ++ [(i, fresh)])
              hrest' hinv3 p htl s' hs' d hd
            rcases this with ⟨j', t', sj, hj, htj, hid, hmem, hsucc⟩
            refine ⟨j', t', sj, hj, htj, hid, ?_, hsucc⟩
            rcases hmem with hmem | hmem
            · rcases List.mem_append.mp hmem with hmem | hmem
              · exact Or.inl hmem
              · simp only [List.mem_singleton] at hmem
                exact Or.inr (List.mem_cons.mpr (Or.inl hmem))
            · exact Or.inr (List.mem_cons.mpr (Or.inr hmem))
      · -- waitForTask rejected: exactly one submission, the head
        simp only [runSteps, hdep, if_true, ho] at hp ⊢
        simp only [List.mem_singleton] at hp
        subst hp
        intro s' hs' d hd
        rw [hstep_i] at hs'
        cases hs'
        rcases hdepwit d hd with ⟨j', t', sj, hj, htj, hid, hmem, hsucc⟩
        exact ⟨j', t', sj, hj, htj, hid, Or.inl hmem, hsucc⟩
    · simp [runSteps, hdep] at hp

end Swamps

namespace Swamps

/-! ## Model router with circuit breakers
(the circuit-breaker-equipped ModelRouter bundled in
backend/src/models/GeminiProvider.ts; the copy in
backend/src/models/ModelRouter.ts carries no breaker at all)

The provider objects are opaque: a call's outcome is given by a
`behavior` oracle mapping the provider name to success or failure, and
`Date.now()` is an explicit `now` parameter.  `generate` returns the
call result (the result payload and the thrown error objects are
opaque), the router state after the call, and the list of provider
names actually invoked during the call, in order.  The per-provider
request statistics (`providerStats`) feed only `getStats`/`healthCheck`
and are not modelled. -/

/-- Per-provider breaker state. -/
structure CircuitState where
  consecutiveFailures : Nat
  lastFailure : Option Nat
  openUntil : Option Nat
deriving DecidableEq, Repr

/-- Router state: registered provider names in insertion order, the
breaker map, and the default provider name. -/
structure RouterState where
  providers : List String
  circuitBreakers : List (String × CircuitState)
  defaultProvider : String
deriving DecidableEq, Repr

/-- The `failureThreshold = 3` field. -/
def failureThreshold : Nat := 3

/-- The `cooldownMs = 30000` field. -/
def cooldownMs : Nat := 30000

/-- A freshly constructed router. -/
def emptyRouter : RouterState := ⟨[], [], "gemini"⟩

/-- ModelRouter.registerProvider: add the provider and a zeroed
breaker. -/
def registerProvider (st : RouterState) (name : String) : RouterState :=
  { st with
    providers :=
      if st.providers.contains name then st.providers
      else st.providers ++ [name],
    circuitBreakers := setKV st.circuitBreakers name ⟨0, none, none⟩ }

/-- ModelRouter.isProviderAvailable: closed unless `openUntil` is set
and still in the future. -/
def isProviderAvailable (st : RouterState) (name : String) (now : Nat) :
    Bool :=
  match lookupKV st.circuitBreakers name with
  | none => true
  | some s =>
    match s.openUntil with
    | some t => if now < t then false else true
    | none => true

/-- ModelRouter.recordFailure: bump the consecutive-failure counter,
remember the failure time, and open the breaker for `cooldownMs` once
the counter reaches `failureThreshold`. -/
def recordFailure (st : RouterState) (name : String) (now : Nat) :
    RouterState :=
  match lookupKV st.circuitBreakers name with
  | none => st
  | some s =>
    let s1 : CircuitState :=
      { s with
        consecutiveFailures := s.consecutiveFailures + 1,
        lastFailure := some now }
    let s2 : CircuitState :=
      if failureThreshold ≤ s1.consecutiveFailures then
        { s1 with openUntil := some (now + cooldownMs) }
      else s1
    { st with circuitBreakers := setKV st.circuitBreakers name s2 }

/-- ModelRouter.recordSuccess: reset the counter and close the
breaker. -/
def recordSuccess (st : RouterState) (name : String) : RouterState :=
  match lookupKV st.circuitBreakers name with
  | none => st
  | some s =>
    { st with
      circuitBreakers := setKV st.circuitBreakers name
        { s with consecutiveFailures := 0, openUntil := none } }

/-- ModelRouter.selectProvider: the preferred provider when registered
and available, else the first available provider in registration
order.  none means the source throws "No providers available". -/
def selectProvider (st : RouterState) (preferred : Option String)
    (now : Nat) : Option String :=
  match preferred with
  | some p =>
    if st.providers.contains p ∧ isProviderAvailable st p now then some p
    else st.providers.find? (fun n => isProviderAvailable st n now)
  | none => st.providers.find? (fun n => isProviderAvailable st n now)

/-- ModelRouter.generateWithFallback over the remaining provider list:
try each provider other than the excluded one whose breaker is closed;
record success or failure per attempt; raise "All providers failed"
when the list is exhausted. -/
def generateWithFallbackAux (behavior : String → Bool) (now : Nat)
    (exclude : String) :
    List String → RouterState → Except String Unit × RouterState × List String
  | [], st => (Except.error "All providers failed", st, [])
  | n :: rest, st =>
    if n ≠ exclude ∧ isProviderAvailable st n now then
      if behavior n then (Except.ok (), recordSuccess st n, [n])
      else
        let st2 := recordFailure st n now
        let r := generateWithFallbackAux behavior now exclude rest st2
        (r.1, r.2.1, n :: r.2.2)
    else generateWithFallbackAux behavior now exclude rest st

/-- ModelRouter.generateWithFallback. -/
def generateWithFallback (st : RouterState) (behavior : String → Bool)
    (now : Nat) (exclude : String) :
    Except String Unit × RouterState × List String :=
  generateWithFallbackAux behavior now exclude st.providers st

/-- ModelRouter.generate: select a provider (throwing when none is
available); if the selected provider's breaker is open go straight to
fallback; otherwise call `recordSuccess` BEFORE awaiting the provider
(the source calls it at the top of the try block), then invoke the
provider; on failure record it and, when a preferred provider was
requested and more than one provider is registered, fall back,
otherwise rethrow the provider's error. -/
def generate (st : RouterState) (preferred : Option String)
    (behavior : String → Bool) (now : Nat) :
    Except String Unit × RouterState × List String :=
  match selectProvider st preferred now with
  | none => (Except.error "No providers available", st, [])
  | some p =>
    if ¬ (isProviderAvailable st p now = true) then
      generateWithFallback st behavior now p
    else
      let st1 := recordSuccess st p
      if behavior p then (Except.ok (), st1, [p])
      else
        let st2 := recordFailure st1 p now
        if preferred.isSome ∧ 1 < st.providers.length then
          let r := generateWithFallback st2 behavior now p
          (r.1, r.2.1, p :: r.2.2)
        else (Except.error "provider error", st2, [p])

/-- The router state after registering the single provider gemini and
making n consecutive always-failing generate calls (one per second,
well inside any 30s cooldown window). -/
def routerAfterFailingCalls : Nat → RouterState
  | 0 => registerProvider emptyRouter "gemini"
  | k + 1 =>
    (generate (routerAfterFailingCalls k) none (fun _ => false)
      (1000 * k)).2.1

end Swamps

/-- C8 counterexample: the no-agent path re-enqueues a dequeued task
that TaskQueue.dequeue left in `activeTasks`, so the task is tracked
twice; in that reachable state cancelTask returns true but does NOT
remove the task — removeTask deletes only the active copy and the
CANCELLED task is still returned by getTask. -/
theorem cancelTask_duplicate_counterexample :
    (Swamps.cancelTask Swamps.dupQueue "t1").1 = true
    ∧ (Swamps.cancelTask Swamps.dupQueue "t1").2.getTask "t1"
        = some ⟨"t1", Swamps.TaskPriority.MEDIUM,
            Swamps.TaskStatus.CANCELLED⟩ := by
  refine ⟨by decide, by decide⟩

/-- C8 (amended): cancelTask returns true exactly when the task exists
with status PENDING or ASSIGNED; a request against an IN_PROGRESS or
terminal task returns false, leaving the queue unchanged.  On success
every copy of the task still tracked is marked CANCELLED and exactly
one tracked copy is removed — so a task tracked in a single container
is fully removed, but in the duplicate state left by the no-agent
requeue a CANCELLED copy survives in a pending sub-queue. -/
theorem cancelTask_success_semantics (q : Swamps.TaskQueue) (i : String) :
    ((Swamps.cancelTask q i).1 = true ↔
        ∃ t, q.getTask i = some t ∧
          (t.status = Swamps.TaskStatus.PENDING
            ∨ t.status = Swamps.TaskStatus.ASSIGNED))
    ∧ ((Swamps.cancelTask q i).1 = false → (Swamps.cancelTask q i).2 = q)
    ∧ ((Swamps.cancelTask q i).1 = true →
        ∀ t ∈ Swamps.allLists (Swamps.cancelTask q i).2, t.id = i →
          t.status = Swamps.TaskStatus.CANCELLED)
    ∧ ((Swamps.cancelTask q i).1 = true →
        0 < Swamps.countId
          (q.active ++ q.critical ++ q.high ++ q.medium ++ q.low) i →
        Swamps.countId (Swamps.allLists (Swamps.cancelTask q i).2) i
          = Swamps.countId (Swamps.allLists q) i - 1) := by
  refine ⟨?_, ?_, ?_, ?_⟩
  · constructor
    · intro hc
      rcases hg : q.getTask i with _ | t
      · rw [Swamps.cancelTask_of_getTask_none q i hg] at hc
        simp at hc
      rw [Swamps.cancelTask_of_getTask_some q i t hg] at hc
      by_cases hs : t.status = Swamps.TaskStatus.PENDING
          ∨ t.status = Swamps.TaskStatus.ASSIGNED
      · exact ⟨t, rfl, hs⟩
      · simp [hs] at hc
    · rintro ⟨t, hg, hs⟩
      rw [Swamps.cancelTask_of_getTask_some q i t hg]
      simp [hs]
  · intro hc
    rcases hg : q.getTask i with _ | t
    · rw [Swamps.cancelTask_of_getTask_none q i hg]
    rw [Swamps.cancelTask_of_getTask_some q i t hg] at hc ⊢
    by_cases hs : t.status = Swamps.TaskStatus.PENDING
        ∨ t.status = Swamps.TaskStatus.ASSIGNED
    · simp [hs] at hc
    · simp [hs]
  · intro hc t ht hid
    rcases hg : q.getTask i with _ | u
    · rw [Swamps.cancelTask_of_getTask_none q i hg] at hc
      simp at hc
    rw [Swamps.cancelTask_of_getTask_some q i u hg] at hc ht
    by_cases hs : u.status = Swamps.TaskStatus.PENDING
        ∨ u.status = Swamps.TaskStatus.ASSIGNED
    · simp only [hs, if_true] at ht
      exact Swamps.overwrite_marks _ i _ t ht hid
    · simp [hs] at hc
  · intro hc hin
    rcases hg : q.getTask i with _ | u
    · rw [Swamps.cancelTask_of_getTask_none q i hg] at hc
      simp at hc
    rw [Swamps.cancelTask_of_getTask_some q i u hg] at hc ⊢
    by_cases hs : u.status = Swamps.TaskStatus.PENDING
        ∨ u.status = Swamps.TaskStatus.ASSIGNED
    · simp only [hs, if_true]
      rw [Swamps.countId_allLists_overwrite]
      exact Swamps.removeTask_count_drop q i hin
    · simp [hs] at hc

/-- Witness for the amended C8 at the concrete duplicate-state queue,
where the removed-copy count drop and the CANCELLED marking are both
exercised. -/
theorem cancelTask_success_semantics_witness :
    ((Swamps.cancelTask Swamps.dupQueue "t1").1 = true ↔
        ∃ t, Swamps.dupQueue.getTask "t1" = some t ∧
          (t.status = Swamps.TaskStatus.PENDING
            ∨ t.status = Swamps.TaskStatus.ASSIGNED))
    ∧ ((Swamps.cancelTask Swamps.dupQueue "t1").1 = false →
        (Swamps.cancelTask Swamps.dupQueue "t1").2 = Swamps.dupQueue)
    ∧ ((Swamps.cancelTask Swamps.dupQueue "t1").1 = true →
        ∀ t ∈ Swamps.allLists (Swamps.cancelTask Swamps.dupQueue "t1").2,
          t.id = "t1" → t.status = Swamps.TaskStatus.CANCELLED)
    ∧ ((Swamps.cancelTask Swamps.dupQueue "t1").1 = true →
        0 < Swamps.countId
          (Swamps.dupQueue.active ++ Swamps.dupQueue.critical
            ++ Swamps.dupQueue.high ++ Swamps.dupQueue.medium
            ++ Swamps.dupQueue.low) "t1" →
        Swamps.countId
            (Swamps.allLists (Swamps.cancelTask Swamps.dupQueue "t1").2) "t1"
          = Swamps.countId (Swamps.allLists Swamps.dupQueue) "t1" - 1) :=
  cancelTask_success_semantics Swamps.dupQueue "t1"

/-- C10 counterexample: in the reachable duplicate state created by the
no-agent requeue, cancelTask returns true yet a subsequent getTask does
NOT report not-found — the CANCELLED task is still retrievable from the
MEDIUM sub-queue. -/
theorem cancelTask_retrievable_counterexample :
    (Swamps.cancelTask Swamps.dupQueue "t1").1 = true
    ∧ ¬ ((Swamps.cancelTask Swamps.dupQueue "t1").2.getTask "t1" = none)
    ∧ Swamps.hasId
        (Swamps.cancelTask Swamps.dupQueue "t1").2.medium "t1" = true := by
  refine ⟨by decide, by decide, by decide⟩

/-- C10 (amended): a successful cancelTask never moves the task into
the completed set (the completed container's id count is unchanged, so
a task with no completed record before has none after), and when the
task was tracked in exactly one container a subsequent getTask returns
not-found; in the duplicate state left by the no-agent requeue, however,
the CANCELLED task remains retrievable. -/
theorem cancelTask_record_semantics (q : Swamps.TaskQueue) (i : String) :
    ((Swamps.cancelTask q i).1 = true →
        Swamps.countId ((Swamps.cancelTask q i).2).completed i
          = Swamps.countId q.completed i)
    ∧ ((Swamps.cancelTask q i).1 = true →
        Swamps.findById q.completed i = none →
        Swamps.findById ((Swamps.cancelTask q i).2).completed i = none)
    ∧ ((Swamps.cancelTask q i).1 = true →
        Swamps.findById q.completed i = none →
        Swamps.countId (Swamps.allLists q) i ≤ 1 →
        ((Swamps.cancelTask q i).2).getTask i = none) := by
  have hcomp : (Swamps.cancelTask q i).1 = true →
      Swamps.countId ((Swamps.cancelTask q i).2).completed i
        = Swamps.countId q.completed i := by
    intro hc
    rcases hg : q.getTask i with _ | u
    · rw [Swamps.cancelTask_of_getTask_none q i hg] at hc
      simp at hc
    rw [Swamps.cancelTask_of_getTask_some q i u hg] at hc ⊢
    by_cases hs : u.status = Swamps.TaskStatus.PENDING
        ∨ u.status = Swamps.TaskStatus.ASSIGNED
    · simp only [hs, if_true]
      rw [Swamps.overwriteStatus_completed, Swamps.countId_overwrite,
        Swamps.removeTask_completed]
    · simp [hs] at hc
  refine ⟨hcomp, ?_, ?_⟩
  · intro hc hnone
    rw [Swamps.findById_eq_none_iff] at hnone ⊢
    rw [hcomp hc]
    exact hnone
  · intro hc hnone hle
    have hdrop := Swamps.cancel_true_count_drop q i hc hnone
    have hz : Swamps.countId
        (Swamps.allLists (Swamps.cancelTask q i).2) i = 0 := by
      omega
    exact Swamps.getTask_eq_none_of_counts _ i hz

/-- Witness for the amended C10 at a concrete single-copy queue, where
every hypothesis holds and getTask really returns not-found. -/
theorem cancelTask_record_semantics_witness :
    ((Swamps.cancelTask Swamps.wqueue "t1").1 = true →
        Swamps.countId ((Swamps.cancelTask Swamps.wqueue "t1").2).completed "t1"
          = Swamps.countId Swamps.wqueue.completed "t1")
    ∧ ((Swamps.cancelTask Swamps.wqueue "t1").1 = true →
        Swamps.findById Swamps.wqueue.completed "t1" = none →
        Swamps.findById
          ((Swamps.cancelTask Swamps.wqueue "t1").2).completed "t1" = none)
    ∧ ((Swamps.cancelTask Swamps.wqueue "t1").1 = true →
        Swamps.findById Swamps.wqueue.completed "t1" = none →
        Swamps.countId (Swamps.allLists Swamps.wqueue) "t1" ≤ 1 →
        ((Swamps.cancelTask Swamps.wqueue "t1").2).getTask "t1" = none) :=
  cancelTask_record_semantics Swamps.wqueue "t1"

/-- C4: tasks enqueued in any mixed priority order are dequeued in
strict priority order CRITICAL, HIGH, MEDIUM, LOW regardless of enqueue
time, FIFO within one priority level (the drain of the queue is exactly
the CRITICAL tasks in enqueue order, then the HIGH ones, then MEDIUM,
then LOW), and dequeue on an empty queue returns none. -/
theorem taskQueue_priority_fifo (ts : List Swamps.QTask) :
    (Swamps.TaskQueue.empty.enqueueAll ts).drain
        = ts.filter (fun t => t.priority = Swamps.TaskPriority.CRITICAL)
          ++ ts.filter (fun t => t.priority = Swamps.TaskPriority.HIGH)
          ++ ts.filter (fun t => t.priority = Swamps.TaskPriority.MEDIUM)
          ++ ts.filter (fun t => t.priority = Swamps.TaskPriority.LOW)
    ∧ (Swamps.TaskQueue.empty.dequeue).1 = none := by
  constructor
  · rcases Swamps.enqueueAll_parts ts Swamps.TaskQueue.empty with
      ⟨hc, hh, hm, hl, -, -⟩
    rw [Swamps.TaskQueue.drain, Swamps.drainAux_concat _ _ (le_refl _),
      hc, hh, hm, hl]
    simp [Swamps.TaskQueue.empty]
  · simp [Swamps.TaskQueue.empty, Swamps.TaskQueue.dequeue]

/-- C5: for every dispatched task the registry load counters after
processTask equal their values before the dispatch, on the success
path, the task-failure path, the thrown-exception path and the
no-agent-requeue path alike: incrementLoad is matched by exactly one
decrementLoad. -/
theorem processTask_load_balanced (st : Swamps.OrchState)
    (task : Swamps.QTask) (selected : Option String)
    (outcome : Swamps.ExecOutcome) :
    (Swamps.processTask st task selected outcome).loads = st.loads := by
  cases selected with
  | none => rfl
  | some aid =>
    cases outcome with
    | result success err =>
      simp [Swamps.processTask, Swamps.decrement_increment_cancel]
    | thrown =>
      simp [Swamps.processTask, Swamps.decrement_increment_cancel]

/-- C7: the selector's total score always lies in [0,1] (for an agent
registered in the registry whose stored success rate is a valid rate),
and the weighted sum is monotonically non-decreasing in the
specialization, historicalSuccess and availability factors, holding the
other factors fixed. -/
theorem selector_score_bounds_monotone
    (loads : List (String × Nat)) (agentIds : List String)
    (ag : Swamps.AgentA) (task : Swamps.STask)
    (s1 s2 h1 h2 a1 a2 p l : ℚ)
    (hsr0 : 0 ≤ ag.metrics.successRate) (hsr1 : ag.metrics.successRate ≤ 1)
    (hmem : ag.id ∈ agentIds)
    (hs : s1 ≤ s2) (hh : h1 ≤ h2) (ha : a1 ≤ a2) :
    (0 ≤ Swamps.calculateScore loads agentIds ag task
      ∧ Swamps.calculateScore loads agentIds ag task ≤ 1)
    ∧ Swamps.calculateScoreFrom Swamps.defaultWeights s1 h1 a1 p l
        ≤ Swamps.calculateScoreFrom Swamps.defaultWeights s2 h1 a1 p l
    ∧ Swamps.calculateScoreFrom Swamps.defaultWeights s1 h1 a1 p l
        ≤ Swamps.calculateScoreFrom Swamps.defaultWeights s1 h2 a1 p l
    ∧ Swamps.calculateScoreFrom Swamps.defaultWeights s1 h1 a1 p l
        ≤ Swamps.calculateScoreFrom Swamps.defaultWeights s1 h1 a2 p l := by
  have hperf : 0 ≤ Swamps.getRecentPerformanceScore ag
      ∧ Swamps.getRecentPerformanceScore ag ≤ 1 := by
    unfold Swamps.getRecentPerformanceScore
    exact ⟨hsr0, hsr1⟩
  refine ⟨?_, ?_, ?_, ?_⟩
  · have := Swamps.score_from_bounds
      (Swamps.getSpecializationScore ag task)
      (Swamps.getHistoricalSuccessScore ag task)
      (Swamps.getAvailabilityScore loads ag)
      (Swamps.getRecentPerformanceScore ag)
      (Swamps.getLoadBalanceScore loads agentIds ag)
      (Swamps.spec_score_bounds ag task)
      (Swamps.hist_score_bounds ag task hsr0 hsr1)
      (Swamps.avail_score_bounds loads ag)
      hperf
      (Swamps.loadbal_score_bounds loads agentIds ag hmem)
    simpa [Swamps.calculateScore] using this
  · have hm := mul_le_mul_of_nonneg_right hs (show (0:ℚ) ≤ 35/100 by norm_num)
    unfold Swamps.calculateScoreFrom Swamps.defaultWeights
    dsimp only
    linarith
  · have hm := mul_le_mul_of_nonneg_right hh (show (0:ℚ) ≤ 25/100 by norm_num)
    unfold Swamps.calculateScoreFrom Swamps.defaultWeights
    dsimp only
    linarith
  · have hm := mul_le_mul_of_nonneg_right ha (show (0:ℚ) ≤ 20/100 by norm_num)
    unfold Swamps.calculateScoreFrom Swamps.defaultWeights
    dsimp only
    linarith

/-- Witness for C7 at a concrete registry, agent, task and factor
values. -/
theorem selector_score_bounds_monotone_witness :
    (0 ≤ Swamps.calculateScore [("a1", 0)] ["a1"]
          ⟨"a1", ⟨["x"], ["GENERAL"], 1⟩, ⟨0, 0, 0, 0, []⟩⟩ ⟨"GENERAL", []⟩
      ∧ Swamps.calculateScore [("a1", 0)] ["a1"]
          ⟨"a1", ⟨["x"], ["GENERAL"], 1⟩, ⟨0, 0, 0, 0, []⟩⟩ ⟨"GENERAL", []⟩ ≤ 1)
    ∧ Swamps.calculateScoreFrom Swamps.defaultWeights 0 0 0 (1/2) (1/2)
        ≤ Swamps.calculateScoreFrom Swamps.defaultWeights 1 0 0 (1/2) (1/2)
    ∧ Swamps.calculateScoreFrom Swamps.defaultWeights 0 0 0 (1/2) (1/2)
        ≤ Swamps.calculateScoreFrom Swamps.defaultWeights 0 1 0 (1/2) (1/2)
    ∧ Swamps.calculateScoreFrom Swamps.defaultWeights 0 0 0 (1/2) (1/2)
        ≤ Swamps.calculateScoreFrom Swamps.defaultWeights 0 0 1 (1/2) (1/2) :=
  selector_score_bounds_monotone [("a1", 0)] ["a1"]
    ⟨"a1", ⟨["x"], ["GENERAL"], 1⟩, ⟨0, 0, 0, 0, []⟩⟩ ⟨"GENERAL", []⟩
    0 1 0 1 0 1 (1/2) (1/2)
    (by norm_num) (by norm_num) (by decide)
    (by norm_num) (by norm_num) (by norm_num)

/-- C3 counterexample: an agent whose supported task types include the
task's type scores 0.8, not 1.0, on a task with no required
capabilities. -/
theorem specialization_no_caps_counterexample :
    Swamps.getSpecializationScore
        ⟨"a1", ⟨[], ["GENERAL"], 1⟩, ⟨0, 0, 0, 0, []⟩⟩ ⟨"GENERAL", []⟩
      = 4/5
    ∧ ¬ Swamps.getSpecializationScore
        ⟨"a1", ⟨[], ["GENERAL"], 1⟩, ⟨0, 0, 0, 0, []⟩⟩ ⟨"GENERAL", []⟩
      = 1 := by
  constructor
  · norm_num [Swamps.getSpecializationScore]
  · norm_num [Swamps.getSpecializationScore]

/-- C3 (amended): the specialization factor is 0.3 when the agent's
supported task types do not include the task's type; 0.8 (not 1.0) when
they do and the task declares no required capabilities; and otherwise
the fraction of the task's distinct required capabilities present in
the agent's skill set. -/
theorem specialization_characterization
    (ag : Swamps.AgentA) (task : Swamps.STask) :
    (task.type ∉ ag.capabilities.supportedTaskTypes →
        Swamps.getSpecializationScore ag task = 3/10)
    ∧ (task.type ∈ ag.capabilities.supportedTaskTypes →
        task.requiredCapabilities = [] →
        Swamps.getSpecializationScore ag task = 4/5)
    ∧ (task.type ∈ ag.capabilities.supportedTaskTypes →
        task.requiredCapabilities ≠ [] →
        Swamps.getSpecializationScore ag task
          = ((task.requiredCapabilities.toFinset
                ∩ ag.capabilities.skills.toFinset).card : ℚ)
            / (task.requiredCapabilities.toFinset.card : ℚ)) := by
  refine ⟨?_, ?_, ?_⟩
  · intro h
    simp [Swamps.getSpecializationScore, h]
  · intro h hreq
    simp [Swamps.getSpecializationScore, h, hreq]
    norm_num
  · intro h hreq
    unfold Swamps.getSpecializationScore
    rw [if_neg (not_not_intro h)]
    dsimp only
    have hlen0 : ¬ task.requiredCapabilities.dedup.length = 0 := by
      simpa [List.length_eq_zero, List.dedup_eq_nil] using hreq
    rw [if_neg hlen0]
    have hnodup : (task.requiredCapabilities.dedup.filter
        (fun c => c ∈ ag.capabilities.skills)).Nodup :=
      (List.nodup_dedup _).filter _
    have hset : (task.requiredCapabilities.dedup.filter
          (fun c => c ∈ ag.capabilities.skills)).toFinset
        = task.requiredCapabilities.toFinset
            ∩ ag.capabilities.skills.toFinset := by
      ext a
      simp [List.mem_filter, List.mem_dedup, Finset.mem_inter,
        List.mem_toFinset]
    have hflen : (task.requiredCapabilities.dedup.filter
          (fun c => c ∈ ag.capabilities.skills)).length
        = (task.requiredCapabilities.toFinset
            ∩ ag.capabilities.skills.toFinset).card := by
      rw [← hset]
      exact (List.toFinset_card_of_nodup hnodup).symm
    rw [hflen, List.card_toFinset]

/-- Witness for the amended C3 at a concrete agent and task. -/
theorem specialization_characterization_witness :
    Swamps.getSpecializationScore
        ⟨"a2", ⟨["x", "y"], ["GENERAL"], 2⟩, ⟨0, 0, 0, 0, []⟩⟩
        ⟨"GENERAL", ["x", "z"]⟩
      = (((["x", "z"] : List String).toFinset
            ∩ (["x", "y"] : List String).toFinset).card : ℚ)
        / (((["x", "z"] : List String).toFinset.card : ℚ)) :=
  (specialization_characterization
      ⟨"a2", ⟨["x", "y"], ["GENERAL"], 2⟩, ⟨0, 0, 0, 0, []⟩⟩
      ⟨"GENERAL", ["x", "z"]⟩).2.2 (by decide) (by decide)

/-- C1 counterexample: with a single-step template whose task always
fails, the step is submitted exactly once — not retried up to 3
attempts — and the execution is immediately marked failed with the
error recorded. -/
theorem workflow_retry_counterexample :
    (Swamps.executeWorkflowModel [⟨"a", "Step A", [], []⟩] []
        (fun _ => Swamps.WaitOutcome.result false "" (some "boom"))).2
      = [(0, 0)]
    ∧ (Swamps.executeWorkflowModel [⟨"a", "Step A", [], []⟩] []
        (fun _ => Swamps.WaitOutcome.result false "" (some "boom"))).1.status
      = Swamps.WStatus.failed
    ∧ Swamps.lookupKV
        (Swamps.executeWorkflowModel [⟨"a", "Step A", [], []⟩] []
          (fun _ => Swamps.WaitOutcome.result false "" (some "boom"))).1.results
        "error"
      = some "Step a failed: boom"
    ∧ ¬ ((Swamps.executeWorkflowModel [⟨"a", "Step A", [], []⟩] []
        (fun _ => Swamps.WaitOutcome.result false "" (some "boom"))).2.length
      = 3) := by
  refine ⟨by decide, by decide, by decide, by decide⟩

/-- C1 (amended): the workflow engine never retries a step — in any
run, each step index appears at most once in the submission trace (the
submitted step indexes are strictly increasing), so a failing step is
attempted exactly once before the execution is marked failed. -/
theorem workflow_step_submitted_at_most_once (template : List Swamps.WStep)
    (inputs : List (String × String)) (oracle : Nat → Swamps.WaitOutcome) :
    ((Swamps.executeWorkflowModel template inputs oracle).2.map
        Prod.fst).Pairwise (· < ·) := by
  rw [Swamps.executeWorkflowModel_subs]
  exact Swamps.runSteps_subs_pairwise oracle template 0 _ 0

/-- C9 counterexample: a two-step workflow whose second step fails ends
with status failed but`completedAt` is never stamped on the failure
path. -/
theorem workflow_failed_no_stamp_counterexample :
    (Swamps.executeWorkflowModel
        [⟨"a", "Step A", [], []⟩, ⟨"b", "Step B", ["a"], []⟩] []
        (fun t => if t = 0 then Swamps.WaitOutcome.result true "ok" none
          else Swamps.WaitOutcome.result false "" (some "boom"))).1.status
      = Swamps.WStatus.failed
    ∧ (Swamps.executeWorkflowModel
        [⟨"a", "Step A", [], []⟩, ⟨"b", "Step B", ["a"], []⟩] []
        (fun t => if t = 0 then Swamps.WaitOutcome.result true "ok" none
          else Swamps.WaitOutcome.result false "" (some "boom"))).1.completedAt
      = none := by
  refine ⟨by decide, by decide⟩

/-- C9 (amended): when a workflow execution fails, its status is
failed, the error message is recorded in the results map, every step
past the current one is still pending — but the execution is NOT
stamped with a completion time (`completedAt` is only set on the
all-steps-succeeded path). -/
theorem workflow_failed_execution_shape (template : List Swamps.WStep)
    (inputs : List (String × String)) (oracle : Nat → Swamps.WaitOutcome)
    (hfail : (Swamps.executeWorkflowModel template inputs oracle).1.status
      = Swamps.WStatus.failed) :
    (Swamps.lookupKV
        (Swamps.executeWorkflowModel template inputs oracle).1.results
        "error").isSome = true
    ∧ (Swamps.executeWorkflowModel template inputs oracle).1.completedAt
        = none
    ∧ ∀ j se,
        (Swamps.executeWorkflowModel template inputs oracle).1.steps.get? j
          = some se →
        (Swamps.executeWorkflowModel template inputs oracle).1.currentStep
          < j →
        se.status = Swamps.StepStatus.pending := by
  have hpend0 : ∀ j se,
      (Swamps.wInitExec template inputs).steps.get? j = some se →
      0 ≤ j → se.status = Swamps.StepStatus.pending := by
    intro j se hj _
    have hmem : se ∈ (Swamps.wInitExec template inputs).steps :=
      List.get?_mem hj
    unfold Swamps.wInitExec at hmem
    dsimp only at hmem
    rcases List.mem_map.mp hmem with ⟨s, -, rfl⟩
    rfl
  cases herr : (Swamps.runSteps oracle template 0
      (Swamps.wInitExec template inputs) 0).2.2 with
  | none =>
    exfalso
    have hcompleted := Swamps.runSteps_none_completed oracle template 0
      (Swamps.wInitExec template inputs) 0 herr
    unfold Swamps.executeWorkflowModel at hfail
    simp only [herr] at hfail
    rw [hcompleted] at hfail
    exact absurd hfail (by decide)
  | some m =>
    have hstate := Swamps.runSteps_thrown_state oracle template 0
      (Swamps.wInitExec template inputs) 0 hpend0 (by omega)
      (by rw [herr]; rfl)
    have hexec : Swamps.executeWorkflowModel template inputs oracle
        = ({ (Swamps.runSteps oracle template 0
              (Swamps.wInitExec template inputs) 0).1 with
            status := Swamps.WStatus.failed,
            results := Swamps.setKV (Swamps.runSteps oracle template 0
              (Swamps.wInitExec template inputs) 0).1.results "error" m },
          (Swamps.runSteps oracle template 0
            (Swamps.wInitExec template inputs) 0).2.1) := by
      unfold Swamps.executeWorkflowModel
      simp only [herr]
    refine ⟨?_, ?_, ?_⟩
    · rw [hexec]
      dsimp only
      rw [Swamps.lookupKV_setKV]
      rfl
    · rw [hexec]
      dsimp only
      rw [hstate.1]
      rfl
    · intro j se hj hlt
      rw [hexec] at hj hlt
      dsimp only at hj hlt
      exact hstate.2 j se hj hlt

/-- Witness for the amended C9 at a concrete two-step workflow whose
second step fails. -/
theorem workflow_failed_execution_shape_witness :
    (Swamps.lookupKV
        (Swamps.executeWorkflowModel
          [⟨"a", "Step A", [], []⟩, ⟨"b", "Step B", ["a"], []⟩] []
          (fun t => if t = 0 then Swamps.WaitOutcome.result true "ok" none
            else Swamps.WaitOutcome.result false "" (some "boom"))).1.results
        "error").isSome = true
    ∧ (Swamps.executeWorkflowModel
        [⟨"a", "Step A", [], []⟩, ⟨"b", "Step B", ["a"], []⟩] []
        (fun t => if t = 0 then Swamps.WaitOutcome.result true "ok" none
          else Swamps.WaitOutcome.result false "" (some "boom"))).1.completedAt
      = none :=
  ⟨(workflow_failed_execution_shape
      [⟨"a", "Step A", [], []⟩, ⟨"b", "Step B", ["a"], []⟩] []
      (fun t => if t = 0 then Swamps.WaitOutcome.result true "ok" none
        else Swamps.WaitOutcome.result false "" (some "boom"))
      (by decide)).1,
    (workflow_failed_execution_shape
      [⟨"a", "Step A", [], []⟩, ⟨"b", "Step B", ["a"], []⟩] []
      (fun t => if t = 0 then Swamps.WaitOutcome.result true "ok" none
        else Swamps.WaitOutcome.result false "" (some "boom"))
      (by decide)).2.1⟩

/-- C6: a step is only ever submitted as a task after its dependency
check passed: for every submission in a workflow run, every dependency
id of the submitted step names an earlier step (smaller template index)
that was itself submitted in this run and whose task outcome was a
success — its status was completed before the dependent step was
submitted. -/
theorem workflow_deps_completed_before_submission
    (template : List Swamps.WStep) (inputs : List (String × String))
    (oracle : Nat → Swamps.WaitOutcome) :
    ∀ p ∈ (Swamps.executeWorkflowModel template inputs oracle).2,
      ∀ s, template.get? p.1 = some s →
      ∀ d ∈ s.dependencies,
        ∃ j' t' sj, j' < p.1 ∧ template.get? j' = some sj ∧ sj.id = d
          ∧ (j', t')
              ∈ (Swamps.executeWorkflowModel template inputs oracle).2
          ∧ (oracle t').isSuccess = true := by
  intro p hp s hs d hd
  rw [Swamps.executeWorkflowModel_subs] at hp
  have hpend0 : ∀ k se,
      (Swamps.wInitExec template inputs).steps.get? k = some se →
      se.status = Swamps.StepStatus.pending := by
    intro k se hk
    have hmem : se ∈ (Swamps.wInitExec template inputs).steps :=
      List.get?_mem hk
    unfold Swamps.wInitExec at hmem
    dsimp only at hmem
    rcases List.mem_map.mp hmem with ⟨u, -, rfl⟩
    rfl
  have hinv0 : Swamps.StepsInv oracle template
      (Swamps.wInitExec template inputs) 0 [] := by
    refine ⟨?_, ?_, ?_⟩
    · intro k
      unfold Swamps.wInitExec
      dsimp only
      rw [List.get?_map]
      rcases template.get? k with _ | u <;> rfl
    · intro k se hk _
      exact hpend0 k se hk
    · intro k se hk hst
      have hpd := hpend0 k se hk
      rw [hpd] at hst
      exact absurd hst (by decide)
  have hmain := Swamps.runSteps_deps_sound oracle template template 0
    (Swamps.wInitExec template inputs) 0 [] rfl hinv0 p hp s hs d hd
  rcases hmain with ⟨j', t', sj, hj, htj, hid, hmem, hsucc⟩
  rcases hmem with hmem | hmem
  · simp at hmem
  · refine ⟨j', t', sj, hj, htj, hid, ?_, hsucc⟩
    rw [Swamps.executeWorkflowModel_subs]
    exact hmem

/-- Witness for C6: in a concrete two-step workflow where step b
depends on step a and every task succeeds, the submission of b is
preceded by a successful submission of a. -/
theorem workflow_deps_completed_before_submission_witness :
    ∃ j' t' sj, j' < 1
      ∧ ([⟨"a", "Step A", [], []⟩,
          ⟨"b", "Step B", ["a"], []⟩] : List Swamps.WStep).get? j' = some sj
      ∧ sj.id = "a"
      ∧ (j', t') ∈ (Swamps.executeWorkflowModel
          [⟨"a", "Step A", [], []⟩, ⟨"b", "Step B", ["a"], []⟩] []
          (fun _ => Swamps.WaitOutcome.result true "ok" none)).2
      ∧ ((fun _ => Swamps.WaitOutcome.result true "ok" none)
          t').isSuccess = true :=
  workflow_deps_completed_before_submission
    [⟨"a", "Step A", [], []⟩, ⟨"b", "Step B", ["a"], []⟩] []
    (fun _ => Swamps.WaitOutcome.result true "ok" none)
    (1, 1) (by decide) ⟨"b", "Step B", ["a"], []⟩ (by decide)
    "a" (by decide)

/-- C2: evidence of the circuit-breaker defect.  A single registered
provider fails three consecutive generate calls, yet before the fourth
call its breaker holds a consecutive-failure count of 1 (recordSuccess
runs before the provider call resolves, resetting the counter on every
attempt), the breaker is not open, and the fourth call within the
cooldown window still invokes the failing provider — the documented
breaker design says it must not be invoked at all. -/
theorem router_fourth_call_still_invokes_failing_provider :
    (Swamps.lookupKV
        (Swamps.routerAfterFailingCalls 3).circuitBreakers "gemini").map
        Swamps.CircuitState.consecutiveFailures = some 1
    ∧ Swamps.isProviderAvailable (Swamps.routerAfterFailingCalls 3)
        "gemini" 3000 = true
    ∧ (Swamps.generate (Swamps.routerAfterFailingCalls 3) none
        (fun _ => false) 3000).2.2 = ["gemini"]
    ∧ (Swamps.generate (Swamps.routerAfterFailingCalls 3) none
        (fun _ => false) 3000).1 = Except.error "provider error" := by
  refine ⟨by decide, by decide, by decide, by rfl⟩
